import Mathlib

/-!
Verification development for the hydra-mode P2PK scanner
(`src/p2pk_scanner/hydra_mode_scanner.py`, `src/p2pk_scanner/bitcoin_rpc.py`,
`src/utils/database.py`, schema from `src/p2pk_scanner/setup_database.py`).

The Python code is shallowly embedded: Python strings are `List Char`
(named `Str` here), dictionaries decoded from JSON become structures with
optional fields, the PostgreSQL tables become lists of row structures, and
the write-behind writer becomes explicit state-passing functions.  Exception
handlers in the source are modelled by explicit flags/short-circuiting that
mirror exactly which `try/except` block catches which raise.
-/

namespace QDay

/-- Python `str` is modelled as a list of characters. -/
abbrev Str := List Char

/-- The hex-digit set used by `is_p2pk_script`:
`'0123456789abcdefABCDEF'`. -/
def hexChars : Str := "0123456789abcdefABCDEF".toList

/-- Membership in the hex-digit set (`c in '0123456789abcdefABCDEF'`). -/
def isHexChar (c : Char) : Bool := hexChars.contains c

/-- The literal token `OP_CHECKSIG`. -/
def opChecksig : Str := "OP_CHECKSIG".toList

/-- The literal script type `pubkey`. -/
def tyPubkey : Str := "pubkey".toList

/-- The literal script type `pubkeyhash`. -/
def tyPubkeyhash : Str := "pubkeyhash".toList

/-- Helper for Python `s.startswith(p)`. -/
def startsWithS (s p : Str) : Bool := p.isPrefixOf s

/-- Python `str.split()` (split on runs of spaces, dropping empty fields),
accumulator-based so that recursion is structural. -/
def splitWsAux : Str → Str → List Str
  | [], acc => if acc.isEmpty then [] else [acc.reverse]
  | c :: cs, acc =>
    if c = ' ' then
      if acc.isEmpty then splitWsAux cs [] else acc.reverse :: splitWsAux cs []
    else splitWsAux cs (c :: acc)

/-- Python `str.split()` with no argument (the scanner's asm fields only ever
contain the space character as whitespace). -/
def splitWs (s : Str) : List Str := splitWsAux s []

/-- Python substring containment `needle in hay` for strings. -/
def containsSub (needle hay : Str) : Bool :=
  match hay with
  | [] => needle.isEmpty
  | _ :: t => needle.isPrefixOf hay || containsSub needle t

/-- A decoded `scriptPubKey` descriptor as consumed by the scanner:
`{type, asm, hex}`, each defaulting to the empty string when the JSON field
is absent (`dict.get(key, '')` / `.get(key)` compared against literals). -/
structure ScriptPubKey where
  type : Str := []
  asm : Str := []
  hex : Str := []
deriving Repr, DecidableEq

/-- The asm-based primary detection branch of `is_p2pk_script`
(`hydra_mode_scanner.py` lines 720-739).  Returns `none` on every path where
the Python code falls through without returning. -/
def classifyAsm (spk : ScriptPubKey) : Option Str :=
  if spk.type = tyPubkey ∧ spk.asm ≠ [] ∧ containsSub opChecksig spk.asm then
    let parts := splitWs spk.asm
    if 2 ≤ parts.length ∧ parts.getLastD [] = opChecksig then
      let pk := parts.headD []
      if pk.length = 130 ∧ startsWithS pk ('0' :: ['4']) then
        if pk.length = 130 ∧ (pk.drop 1).all isHexChar then some pk else none
      else if pk.length = 66 ∧
          (startsWithS pk ('0' :: ['2']) ∨ startsWithS pk ('0' :: ['3'])) then
        if pk.length = 66 ∧ (pk.drop 1).all isHexChar then some pk else none
      else none
    else none
  else none

/-- The hex-based secondary detection branch of `is_p2pk_script`
(`hydra_mode_scanner.py` lines 742-752): `0x41 | key | 0xac` patterns,
`hex_data[2:-2]` extracting the embedded key. -/
def classifyHex (spk : ScriptPubKey) : Option Str :=
  let h := spk.hex
  if h ≠ [] then
    if h.length = 134 ∧ startsWithS h ('4' :: ['1']) then
      let pk := (h.drop 2).take (h.length - 4)
      if pk.length = 130 ∧ startsWithS pk ('0' :: ['4']) then some pk else none
    else if h.length = 70 ∧ startsWithS h ('4' :: ['1']) then
      let pk := (h.drop 2).take (h.length - 4)
      if pk.length = 66 ∧
          (startsWithS pk ('0' :: ['2']) ∨ startsWithS pk ('0' :: ['3'])) then
        some pk
      else none
    else none
  else none

/-- `is_p2pk_script` (`hydra_mode_scanner.py` lines 713-758): `pubkeyhash`
is excluded first; then the asm branch; then, when the asm branch falls
through, the hex branch; malformed input yields `none`. -/
def is_p2pk_script (spk : ScriptPubKey) : Option Str :=
  if spk.type = tyPubkeyhash then none
  else
    match classifyAsm spk with
    | some pk => some pk
    | none => classifyHex spk

/-- A decoded output: `value` is the native decoded amount (modelled as a
rational: the decoded JSON number; `int(value * 100000000)` agrees with the
rational floor on the non-negative amounts used here), plus its script. -/
structure Vout where
  value : ℚ := 0
  scriptPubKey : ScriptPubKey := {}
deriving Repr, DecidableEq

/-- A decoded input: `prevTxid`/`prevVout` model the optional `txid`/`vout`
fields (`none` for coinbase inputs), `scriptSigAsm` models
`vin['scriptSig']['asm']` when present. -/
structure Vin where
  prevTxid : Option Str := none
  prevVout : Option Nat := none
  scriptSigAsm : Option Str := none
deriving Repr, DecidableEq

/-- A decoded transaction as returned by `getblock` verbosity 2 /
`getrawtransaction`. -/
structure Tx where
  txid : Str := []
  vout : List Vout := []
  vin : List Vin := []
deriving Repr, DecidableEq

/-- A decoded block: `time` plus its transaction list. -/
structure Block where
  time : Int := 0
  tx : List Tx := []
deriving Repr, DecidableEq

/-- `might_be_p2pk_input` (`hydra_mode_scanner.py` lines 761-782): when a
`scriptSig` asm is available and has a first token, the token's length must
be 142-146; in every other case the conservative answer is `true`. -/
def might_be_p2pk_input (vin : Vin) : Bool :=
  match vin.scriptSigAsm with
  | some asm =>
    match splitWs asm with
    | sig :: _ => 142 ≤ sig.length ∧ sig.length ≤ 146
    | [] => true
  | none => true

/-- The per-output test made by `quick_scan_block_for_p2pk`
(`hydra_mode_scanner.py` lines 800-820): a `pubkey` type tag, or an asm of
the shape `<key> ... OP_CHECKSIG` whose first token looks like a 130/66-hex
key.  The `hex` field is never inspected here. -/
def quickScanVout (v : Vout) : Bool :=
  let spk := v.scriptPubKey
  let parts := splitWs spk.asm
  let pk := parts.headD []
  decide (spk.type = tyPubkey) ||
    (containsSub opChecksig spk.asm &&
      (decide (2 ≤ parts.length) && decide (parts.getLastD [] = opChecksig) &&
        ((decide (pk.length = 130) && startsWithS pk ('0' :: ['4'])) ||
          (decide (pk.length = 66) &&
            (startsWithS pk ('0' :: ['2']) || startsWithS pk ('0' :: ['3']))))))

/-- `quick_scan_block_for_p2pk` (`hydra_mode_scanner.py` lines 785-828):
`false` when the block has no transactions, otherwise `true` iff some output
of some transaction passes the per-output quick test. -/
def quick_scan_block_for_p2pk (b : Block) : Bool :=
  if b.tx.isEmpty then false
  else b.tx.any fun tx => tx.vout.any quickScanVout

/-- `int(value * 100000000)`: amounts converted to satoshi.  `int()`
truncates toward zero, which is `Int.div` of the numerator by the
denominator of the exact product. -/
def satoshiOf (v : ℚ) : Int :=
  Int.tdiv (v.num * 100000000) (v.den : Int)

/-- One P2PK sighting produced by `process_transaction`: the dictionary
pushed to `db_manager.add_transaction` (`block_time` carried as the raw
timestamp). -/
structure P2pkEvent where
  txid : Str
  block_height : Nat
  block_time : Int
  public_key_hex : Str
  amount_satoshi : Int
  is_input : Bool
deriving Repr, DecidableEq

/-- Output pass of `process_transaction` (`hydra_mode_scanner.py` lines
894-912): classify each output, skipping public keys already recorded in the
per-transaction `p2pk_addresses_found_in_tx` set. -/
def processOutsAux (txid : Str) (h : Nat) (t : Int) :
    List Vout → List P2pkEvent → List Str → List P2pkEvent × List Str
  | [], evs, found => (evs, found)
  | v :: vs, evs, found =>
    match is_p2pk_script v.scriptPubKey with
    | some pk =>
      if pk ∈ found then processOutsAux txid h t vs evs found
      else
        processOutsAux txid h t vs
          (evs ++ [⟨txid, h, t, pk, satoshiOf v.value, false⟩]) (pk :: found)
    | none => processOutsAux txid h t vs evs found

/-- The classification of one spending input (`hydra_mode_scanner.py` lines
916-933): skip inputs without `txid`/`vout` fields (coinbase), apply the
plausibility heuristic, look the previous transaction up in the cache
(`none` models a failed `getrawtransaction`, whose exception is caught and
the input skipped), guard the `prev_tx['vout'][vin['vout']]` access (an
`IndexError` is caught by the same handler) and classify the previous
output's script, pairing the key with the spent output's value. -/
def classifyVin (cache : Str → Option Tx) (vin : Vin) : Option (Str × ℚ) :=
  match vin.prevTxid, vin.prevVout with
  | some ptx, some pidx =>
    if might_be_p2pk_input vin then
      match cache ptx with
      | some prev =>
        match prev.vout[pidx]? with
        | some pv => (is_p2pk_script pv.scriptPubKey).map fun pk => (pk, pv.value)
        | none => none
      | none => none
    else none
  | _, _ => none

/-- Input pass of `process_transaction` (`hydra_mode_scanner.py` lines
914-946): the same `p2pk_addresses_found_in_tx` set continues from the
output pass, so a key already emitted for an output is not emitted again
for an input. -/
def processInsAux (cache : Str → Option Tx) (txid : Str) (h : Nat) (t : Int) :
    List Vin → List P2pkEvent → List Str → List P2pkEvent × List Str
  | [], evs, found => (evs, found)
  | vin :: vs, evs, found =>
    match classifyVin cache vin with
    | some pka =>
      if pka.1 ∈ found then processInsAux cache txid h t vs evs found
      else
        processInsAux cache txid h t vs
          (evs ++ [⟨txid, h, t, pka.1, satoshiOf pka.2, true⟩])
          (pka.1 :: found)
    | none => processInsAux cache txid h t vs evs found

/-- `process_transaction` (`hydra_mode_scanner.py` lines 886-952): outputs
first, then inputs, sharing one per-transaction found-pubkey set. -/
def process_transaction (tx : Tx) (h : Nat) (t : Int)
    (cache : Str → Option Tx) : List P2pkEvent :=
  let o := processOutsAux tx.txid h t tx.vout [] []
  (processInsAux cache tx.txid h t tx.vin o.1 o.2).1

/-- The 7-tuple `address_data` built by `add_transaction`
(`hydra_mode_scanner.py` lines 560-568). -/
structure AddressOp where
  address : Str
  public_key_hex : Str
  first_seen_block : Nat
  first_seen_txid : Str
  last_seen_block : Nat
  total_received_satoshi : Int
  current_balance_satoshi : Int
deriving Repr, DecidableEq

/-- The 6-tuple `transaction_data` built by `add_transaction`; `address_id`
starts as the placeholder `some 0` and is overwritten by the writer with
`address_mapping.get(address_key)`, which is `none` when the key is absent
from the mapping (Python `None`). -/
structure TxOp where
  txid : Str
  block_height : Nat
  block_time : Int
  address_id : Option Nat
  is_input : Bool
  amount_satoshi : Int
deriving Repr, DecidableEq

/-- The 5-tuple `block_data` built by `add_transaction`; `address_id` as in
`TxOp`. -/
structure BlockOp where
  address_id : Option Nat
  block_height : Nat
  is_input : Bool
  amount_satoshi : Int
  txid : Str
deriving Repr, DecidableEq

/-- The payload of one write-queue item (`item['data']`). -/
inductive QData where
  | addr (op : AddressOp)
  | tx (op : TxOp)
  | blk (op : BlockOp)
deriving Repr, DecidableEq

/-- One write-queue item: `{'type': ..., 'data': ..., 'address_key': ...}`. -/
structure QItem where
  data : QData
  address_key : Str
deriving Repr, DecidableEq

/-- `add_transaction` (`hydra_mode_scanner.py` lines 556-609): derives the
address key as `public_key_hex[:34]` and appends one address, one
transaction and one block item to the write queue.  All three puts are
blocking (`block=True`), so enqueueing never drops an item; the bounded
capacity only delays the append and is not modelled. -/
def add_transaction (ev : P2pkEvent) (q : List QItem) : List QItem :=
  let key := ev.public_key_hex.take 34
  let recv : Int := if ev.is_input then 0 else ev.amount_satoshi
  let addrOp : AddressOp :=
    ⟨key, ev.public_key_hex, ev.block_height, ev.txid, ev.block_height,
      recv, recv⟩
  let txOp : TxOp :=
    ⟨ev.txid, ev.block_height, ev.block_time, some 0, ev.is_input,
      ev.amount_satoshi⟩
  let blkOp : BlockOp :=
    ⟨some 0, ev.block_height, ev.is_input, ev.amount_satoshi, ev.txid⟩
  q ++ [⟨.addr addrOp, key⟩, ⟨.tx txOp, key⟩, ⟨.blk blkOp, key⟩]

/-- A committed `p2pk_addresses` row (schema `setup_database.py` lines
30-43; `id SERIAL`, `address UNIQUE`).  The hydra scanner shares these
tables with the original multithreaded scanner, so rows may pre-exist. -/
structure AddressRow where
  id : Nat
  address : Str
  public_key_hex : Str
  first_seen_block : Nat
  first_seen_txid : Str
  last_seen_block : Nat
  total_received_satoshi : Int
  current_balance_satoshi : Int
deriving Repr, DecidableEq

/-- A committed `p2pk_transactions` row.  Per the schema
(`setup_database.py` line 53) `address_id` is a nullable column, so the row
can hold `none`. -/
structure TxRow where
  txid : Str
  block_height : Nat
  block_time : Int
  address_id : Option Nat
  is_input : Bool
  amount_satoshi : Int
deriving Repr, DecidableEq

/-- A committed `p2pk_address_blocks` row (`address_id` nullable,
`setup_database.py` line 64). -/
structure BlockRow where
  address_id : Option Nat
  block_height : Nat
  is_input : Bool
  amount_satoshi : Int
  txid : Str
deriving Repr, DecidableEq

/-- The committed database state.  `scan_progress` has a unique
`scanner_name` column and the scanner touches exactly two names, so the two
rows are modelled as optional `(last_scanned_block, total_blocks_scanned)`
pairs: `hydraProgress` for `'hydra_mode_p2pk_scanner'` and `markerProgress`
for `'block_processed_marker'`. -/
structure DB where
  addresses : List AddressRow := []
  transactions : List TxRow := []
  addressBlocks : List BlockRow := []
  hydraProgress : Option (Nat × Nat) := none
  markerProgress : Option (Nat × Nat) := none
deriving Repr, DecidableEq

/-- `SELECT id FROM p2pk_addresses WHERE address = %s` (each such statement
commits via `DatabaseManager.get_cursor`). -/
def selectAddressId (db : DB) (key : Str) : Option Nat :=
  (db.addresses.find? fun r => decide (r.address = key)).map (·.id)

/-- `UPDATE p2pk_addresses SET last_seen_block = GREATEST(last_seen_block,
%s) WHERE id = %s AND last_seen_block < %s` (`hydra_mode_scanner.py` lines
402-407). -/
def updateLastSeen (db : DB) (i : Nat) (v : Nat) : DB :=
  { db with
    addresses := db.addresses.map fun r =>
      if r.id = i ∧ r.last_seen_block < v then { r with last_seen_block := v }
      else r }

/-- The key-format validation in `_bulk_insert_addresses`
(`hydra_mode_scanner.py` lines 377-391): compressed 66-hex with `02`/`03`
prefix or uncompressed 130-hex with `04` prefix. -/
def validKeyFormat (pk : Str) : Bool :=
  if pk.length = 66 then
    startsWithS pk ('0' :: ['2']) || startsWithS pk ('0' :: ['3'])
  else if pk.length = 130 then startsWithS pk ('0' :: ['4'])
  else false

/-- The writer's `failed_addresses` dict: `address_key -> (address_op,
attempts)`, insertion-ordered. -/
abbrev FailedMap := List (Str × AddressOp × Nat)

/-- Dict lookup in `failed_addresses`. -/
def fmLookup (m : FailedMap) (k : Str) : Option (AddressOp × Nat) :=
  (m.find? fun p => decide (p.1 = k)).map (·.2)

/-- Dict assignment `failed_addresses[key] = v` (replace in place, or append
when new). -/
def fmSet (m : FailedMap) (k : Str) (v : AddressOp × Nat) : FailedMap :=
  if (m.find? fun p => decide (p.1 = k)).isSome then
    m.map fun p => if p.1 = k then (k, v) else p
  else m ++ [(k, v)]

/-- `MAX_RETRIES` of the writer (`HydraModeDatabaseManager.max_retries`). -/
def writerMaxRetries : Nat := 3

/-- Writer state threaded through a flush: committed database plus the
writer-owned `failed_addresses` retry map. -/
structure BState where
  db : DB := {}
  failed : FailedMap := []
deriving Repr, DecidableEq

/-- The per-op loop of `_bulk_insert_addresses` (`hydra_mode_scanner.py`
lines 359-504).  For a key with no committed row the source calls
`self.db_manager.execute_upsert(...)` (line 412), but `DatabaseManager`
(`src/utils/database.py`) defines no `execute_upsert` method, so the call
raises `AttributeError` before any insert strategy can run: the handler at
line 457 bumps the key's attempt counter and, when `attempts <
max_retries`, records `None`; when `attempts >= max_retries` it raises at
line 464, the raise is caught at line 466 (bumping the counter once more)
and re-raised at line 473, aborting the remaining ops — the returned flag
records that escape.  A new address row is therefore never committed by
this scanner; only rows that already exist (written by another scanner
sharing the tables) resolve, via the `SELECT` + conditional
`last_seen_block` update path. -/
def bulkInsertAddrGo :
    List AddressOp → BState → List (Option Nat) →
      BState × List (Option Nat) × Bool
  | [], st, ids => (st, ids, false)
  | op :: rest, st, ids =>
    if op.address = [] ∨ op.public_key_hex = [] then
      bulkInsertAddrGo rest st (ids ++ [none])
    else if ¬ validKeyFormat op.public_key_hex then
      bulkInsertAddrGo rest st (ids ++ [none])
    else
      match selectAddressId st.db op.address with
      | some i =>
        bulkInsertAddrGo rest
          ⟨updateLastSeen st.db i op.last_seen_block, st.failed⟩
          (ids ++ [some i])
      | none =>
        let a1 := ((fmLookup st.failed op.address).map (·.2)).getD 0 + 1
        if writerMaxRetries ≤ a1 then
          (⟨st.db, fmSet st.failed op.address (op, a1 + 1)⟩, ids, true)
        else
          bulkInsertAddrGo rest
            ⟨st.db, fmSet st.failed op.address (op, a1)⟩ (ids ++ [none])

/-- `_bulk_insert_addresses`: the outer `try/except` (line 502) turns any
escaped `RuntimeError` into a normal return of `[None] * len(address_ops)`;
all state mutations made before the raise persist.  No exception ever
reaches the caller. -/
def bulkInsertAddresses (st : BState) (ops : List AddressOp) :
    BState × List (Option Nat) :=
  let r := bulkInsertAddrGo ops st []
  if r.2.2 then (r.1, List.replicate ops.length none) else (r.1, r.2.1)

/-- `executemany` of the prepared `transaction_insert` statement followed by
`commit` (`_bulk_insert_transactions`): the nullable `address_id` column
accepts every op. -/
def insertTransactions (db : DB) (ops : List TxOp) : DB :=
  { db with
    transactions := db.transactions ++ ops.map fun op =>
      ⟨op.txid, op.block_height, op.block_time, op.address_id, op.is_input,
        op.amount_satoshi⟩ }

/-- `executemany` of the prepared `block_insert` statement followed by
`commit` (`_bulk_insert_blocks`). -/
def insertBlocks (db : DB) (ops : List BlockOp) : DB :=
  { db with
    addressBlocks := db.addressBlocks ++ ops.map fun op =>
      ⟨op.address_id, op.block_height, op.is_input, op.amount_satoshi,
        op.txid⟩ }

/-- The set `address_keys_in_batch`, modelled as a first-occurrence
deduplicated list (set iteration order only feeds independent `SELECT`s). -/
def dedupKeys (ks : List Str) : List Str :=
  ks.foldl (fun acc k => if k ∈ acc then acc else acc ++ [k]) []

/-- `_flush_batch` (`hydra_mode_scanner.py` lines 248-357).  Faithful
details: the first pass tests membership in the still-empty
`address_mapping`, so every address item is collected (duplicates
included); retry entries are deleted from `failed_addresses` before the
bulk insert, discarding their attempt counters; an unresolved key raises a
`RuntimeError` that the function's own `except` catches, ending the flush
with no dependent insert; otherwise dependent ops take
`address_mapping.get(address_key)`, which is `none` for a key that had no
address item in this batch. -/
def flushBatch (st : BState) (batch : List QItem) : BState :=
  if batch = [] then st
  else
    let addressOps := batch.filterMap fun i =>
      match i.data with | .addr op => some op | _ => none
    let batchKeys := batch.filterMap fun i =>
      match i.data with | .addr _ => some i.address_key | _ => none
    let retryOps := st.failed.map fun p => p.2.1
    let keysAll := dedupKeys (batchKeys ++ retryOps.map (·.address))
    let allOps := retryOps ++ addressOps
    let st1 : BState := ⟨st.db, []⟩
    let st2 := if allOps = [] then st1 else (bulkInsertAddresses st1 allOps).1
    let mapping : List (Str × Option Nat) :=
      keysAll.map fun k => (k, selectAddressId st2.db k)
    if mapping.any fun p => p.2 = none then st2
    else
      let mget : Str → Option Nat := fun k =>
        match mapping.find? fun p => decide (p.1 = k) with
        | some p => p.2
        | none => none
      let txOps := batch.filterMap fun i =>
        match i.data with
        | .tx op => some { op with address_id := mget i.address_key }
        | _ => none
      let blkOps := batch.filterMap fun i =>
        match i.data with
        | .blk op => some { op with address_id := mget i.address_key }
        | _ => none
      let db3 := insertTransactions st2.db txOps
      let db4 := insertBlocks db3 blkOps
      ⟨db4, st2.failed⟩

/-- The writer loop's batching (`_writer_loop`): items are drained in
arrival order and flushed whenever the batch reaches `batch_size`; a
trailing short batch is flushed by the 2 s timeout or the shutdown flush.
Flush errors are logged and never stop the loop. -/
def writerRunGo (bs : Nat) :
    Nat → BState → List QItem → BState
  | 0, st, stream => flushBatch st stream
  | fuel + 1, st, stream =>
    if stream.isEmpty then st
    else
      writerRunGo bs fuel (flushBatch st (stream.take bs))
        (stream.drop bs)

/-- Run the writer over a finite stream of queue items with flush threshold
`bs`. -/
def writerRun (bs : Nat) (st : BState) (stream : List QItem) : BState :=
  writerRunGo bs stream.length st stream

/-- `update_scan_progress` (`hydra_mode_scanner.py` lines 689-704):
`UPDATE scan_progress SET last_scanned_block = %s, total_blocks_scanned =
total_blocks_scanned + %s WHERE scanner_name = 'hydra_mode_p2pk_scanner'` —
an unconditional assignment of the given height to whatever row exists. -/
def update_scan_progress (db : DB) (h : Nat) (n : Nat) : DB :=
  { db with hydraProgress := db.hydraProgress.map fun p => (h, p.2 + n) }

/-- The `block_processed_marker` upsert executed per processed block
(`hydra_mode_scanner.py` lines 1178-1185). -/
def upsertMarker (db : DB) (h : Nat) : DB :=
  { db with
    markerProgress :=
      some (match db.markerProgress with
        | some p => (h, p.2 + 1)
        | none => (h, 1)) }

/-- The stored `last_scanned_block` of the hydra scanner row. -/
def progressLast (db : DB) : Option Nat := db.hydraProgress.map (·.1)

/-- Shared pipeline state seen by one worker: the committed database, the
write-behind queue contents (items enqueued but not yet flushed) and the
`total_blocks_scanned` counter. -/
structure SysState where
  db : DB := {}
  queue : List QItem := []
  totalBlocksScanned : Nat := 0
deriving Repr, DecidableEq

/-- The successful-block body of `worker` (`hydra_mode_scanner.py` lines
1008-1198, individual `batch_rpc=False` path): on a quick-scan miss the
block is counted and the progress row updated with no events; otherwise
every transaction is processed, each sighting is enqueued via
`add_transaction`, the counter is bumped, the progress row is set to this
height, and the `block_processed_marker` row is upserted.  The worker never
writes transaction or block rows itself. -/
def workerProcessBlock (st : SysState) (b : Block) (h : Nat)
    (quickScan : Bool) (cache : Str → Option Tx) : SysState :=
  if quickScan ∧ ¬ quick_scan_block_for_p2pk b then
    { st with
      db := update_scan_progress st.db h 1
      totalBlocksScanned := st.totalBlocksScanned + 1 }
  else
    let evs := b.tx.foldl
      (fun acc tx => acc ++ process_transaction tx h b.time cache) []
    let q' := evs.foldl (fun q ev => add_transaction ev q) st.queue
    let db' := upsertMarker (update_scan_progress st.db h 1) h
    { db := db', queue := q', totalBlocksScanned := st.totalBlocksScanned + 1 }

/-- The successive `last_scanned_block` values stored by a sequence of
worker completion updates at the given heights. -/
def progressTrace (db : DB) : List Nat → List (Option Nat)
  | [] => []
  | h :: hs =>
    let db' := update_scan_progress db h 1
    progressLast db' :: progressTrace db' hs

/-- One response of the Bitcoin Core endpoint to a single HTTP post inside
`BitcoinRPC._make_request` (`bitcoin_rpc.py` lines 56-95).
`transportError` is a `requests` failure of the post itself (timeout,
connection reset); `httpError code` is a non-2xx status, turned into an
`HTTPError` — a `RequestException` — by `raise_for_status` (cookie-auth
failures arrive as `httpError 401`); `rpcError` is a 200 response whose
JSON carries a non-null `error`; `noResult` is a 200 response with no
`result`; `ok v` is a successful result payload. -/
inductive RpcResponse where
  | transportError
  | httpError (code : Nat)
  | rpcError
  | noResult
  | ok (v : Nat)
deriving Repr, DecidableEq

/-- How `_make_request` terminates: errors it raises to its caller. -/
inductive RpcErrorKind where
  | exhausted
  | rpcError
  | noResult
deriving Repr, DecidableEq

/-- Result of `_make_request` instrumented with the number of HTTP attempts
made and the number of `time.sleep(RETRY_DELAY)` calls executed. -/
inductive MakeResult where
  | success (v : Nat) (attemptsUsed : Nat) (delaysSlept : Nat)
  | failure (err : RpcErrorKind) (attemptsUsed : Nat) (delaysSlept : Nat)
deriving Repr, DecidableEq

/-- `config.MAX_RETRIES` (default 3, `utils/config.py` line 52). -/
def rpcMaxRetries : Nat := 3

/-- `config.RETRY_DELAY` in seconds (default 5, `utils/config.py` line
53). -/
def rpcRetryDelay : Nat := 5

/-- Classifies responses that the loop's `except
requests.exceptions.RequestException` catches (transport failures and
`raise_for_status` HTTP errors, authentication included). -/
def isReqExc : RpcResponse → Bool
  | .transportError => true
  | .httpError _ => true
  | _ => false

/-- The retry loop of `_make_request`: `for attempt in range(MAX_RETRIES)`.
A `RequestException`-class failure sleeps and retries until the last
attempt, then raises `exhausted`; a JSON-RPC `error` payload or a missing
`result` raises a plain `Exception` that the handler does not catch, so it
propagates immediately. -/
def makeRequestGo (responses : Nat → RpcResponse) :
    Nat → Nat → Nat → MakeResult
  | 0, attempt, sleeps => .failure .exhausted attempt sleeps
  | fuel + 1, attempt, sleeps =>
    match responses attempt with
    | .ok v => .success v (attempt + 1) sleeps
    | .rpcError => .failure .rpcError (attempt + 1) sleeps
    | .noResult => .failure .noResult (attempt + 1) sleeps
    | .transportError =>
      if attempt < rpcMaxRetries - 1 then
        makeRequestGo responses fuel (attempt + 1) (sleeps + 1)
      else .failure .exhausted (attempt + 1) sleeps
    | .httpError _ =>
      if attempt < rpcMaxRetries - 1 then
        makeRequestGo responses fuel (attempt + 1) (sleeps + 1)
      else .failure .exhausted (attempt + 1) sleeps

/-- `_make_request` against a response oracle giving the endpoint's answer
to each attempt. -/
def makeRequest (responses : Nat → RpcResponse) : MakeResult :=
  makeRequestGo responses rpcMaxRetries 0 0

/-! ### Concrete scenario inputs -/

/-- An uncompressed 130-hex public key, `04` followed by 128 `a`s (the key
of spec scenario S1). -/
def key130 : Str := '0' :: '4' :: List.replicate 128 'a'

/-- The S1 output script: `{type: "pubkey", asm: "<key130> OP_CHECKSIG"}`. -/
def spkS1 : ScriptPubKey := { type := tyPubkey, asm := key130 ++ ' ' :: opChecksig }

/-- The S1 transaction: one `pubkey` output of value 1.00000000 and one
coinbase input. -/
def txS1 : Tx :=
  { txid := "t1".toList, vout := [{ value := 1, scriptPubKey := spkS1 }],
    vin := [{}] }

/-- The S1 block at height 5. -/
def blockS1 : Block := { time := 1231006505, tx := [txS1] }

/-- The events the worker extracts from the S1 block's transaction. -/
def evsS1 : List P2pkEvent := process_transaction txS1 5 1231006505 fun _ => none

/-- The write-queue contents after the worker enqueues the S1 events. -/
def qS1 : List QItem := evsS1.foldl (fun q ev => add_transaction ev q) []

/-- Writer state after draining the S1 queue with the default flush
threshold 1000, starting from an empty database: all three items land in
one flush. -/
def finS1 : BState := writerRun 1000 {} qS1

/-- A script carrying a P2PK pattern only in its `hex` field:
`41 <key130> ac` with a non-`pubkey` type tag and empty asm. -/
def hexOnlySpk : ScriptPubKey :=
  { type := "nonstandard".toList, hex := '4' :: '1' :: key130 ++ ['a', 'c'] }

/-- The transaction whose only output is the hex-only P2PK script. -/
def txHexOnly : Tx :=
  { txid := "t2".toList, vout := [{ value := 1, scriptPubKey := hexOnlySpk }] }

/-- A block whose only output is the hex-only P2PK script. -/
def hexOnlyBlock : Block := { time := 0, tx := [txHexOnly] }

/-- The previous transaction spent by `txBoth`: its output 0 pays
`key130`. -/
def prevTxBoth : Tx :=
  { txid := "p1".toList, vout := [{ value := 1, scriptPubKey := spkS1 }] }

/-- A transaction that both receives to `key130` (output 0) and spends a
`key130` output (its input references `prevTxBoth` output 0). -/
def txBoth : Tx :=
  { txid := "t3".toList, vout := [{ value := 2, scriptPubKey := spkS1 }],
    vin := [{ prevTxid := some ("p1".toList), prevVout := some 0 }] }

/-- Per-block cache containing the previous transaction of `txBoth`. -/
def cacheBoth : Str → Option Tx :=
  fun s => if s = "p1".toList then some prevTxBoth else none

/-- The S3 transaction: two outputs paying the identical P2PK key. -/
def txS3 : Tx :=
  { txid := "t4".toList,
    vout := [{ value := 1, scriptPubKey := spkS1 },
      { value := 2, scriptPubKey := spkS1 }] }

/-- The S1 address key: the first 34 characters of `key130`. -/
def keyK34 : Str := key130.take 34

/-- A `p2pk_addresses` row for `keyK34` committed before the run by the
original multithreaded scanner, which shares these tables (within the
frozen hydra source itself a new address row can never be committed, since
`execute_upsert` does not exist). -/
def preRow : AddressRow := ⟨1, keyK34, key130, 2, "t0".toList, 2, 0, 0⟩

/-- A database already holding the committed address row for `keyK34`. -/
def dbPre : DB := { addresses := [preRow] }

/-- Writer state after draining the S1 queue with flush threshold 1 against
`dbPre`: each queue item is flushed in its own batch, so the transaction
and block items arrive in batches containing no address item for their
key, while the address item's own flush resolves the key via the
pre-existing committed row (leaving no retry entry behind). -/
def finSplit : BState := writerRun 1 ⟨dbPre, []⟩ qS1

/-- Three successive flushes against an empty database, each carrying a
fresh S1 sighting of `keyK34` — a key whose upsert fails in every flush,
which in the frozen source is the unconditional behavior for any new key
(`execute_upsert` is undefined), subsuming spec scenario S6's deliberate
three-fold failure.  (The events of each failed batch are re-produced by
the scenario; the writer itself retries only the address op.) -/
def flushFail3 : BState :=
  flushBatch (flushBatch (flushBatch {} qS1) qS1) qS1

/-- A database whose hydra scan-progress row exists with
`last_scanned_block = 0`. -/
def dbProg0 : DB := { hydraProgress := some (0, 0) }

/-- State of the pipeline after one worker processes the S1 block at height
5 starting from an empty queue and an empty database. -/
def stAfterWorker : SysState :=
  workerProcessBlock { db := dbProg0 } blockS1 5 false fun _ => none

/-- A classified public key containing uppercase hex digits: `04` followed
by 128 `A`s. -/
def keyUpper : Str := '0' :: '4' :: List.replicate 128 'A'

/-- The script paying `keyUpper`; `is_p2pk_script` accepts uppercase hex. -/
def spkUpper : ScriptPubKey :=
  { type := tyPubkey, asm := keyUpper ++ ' ' :: opChecksig }

/-- A sighting of `keyUpper`, as produced by the classifier on
`spkUpper`. -/
def evUpper : P2pkEvent :=
  ⟨"t5".toList, 9, 0, keyUpper, 100000000, false⟩

/-- Python `str.lower()` on the spec side of the address-key claim. -/
def lowerStr (s : Str) : Str := s.map Char.toLower

/-- A response oracle answering every attempt with HTTP 401 (cookie
authentication rejected). -/
def authRejected : Nat → RpcResponse := fun _ => .httpError 401

/-! ### Helper lemmas -/

/-- `splitWsAux` emits the accumulated word when it meets the separating
space after a space-free segment. -/
lemma splitWsAux_sep (rest : Str) (key : Str) :
    ∀ acc : Str, (∀ c ∈ key, c ≠ ' ') → (acc ≠ [] ∨ key ≠ []) →
      splitWsAux (key ++ ' ' :: rest) acc =
        (acc.reverse ++ key) :: splitWsAux rest [] := by
  induction key with
  | nil =>
    intro acc _ hne
    have hacc : acc ≠ [] := hne.resolve_right fun h => h rfl
    cases acc with
    | nil => exact absurd rfl hacc
    | cons a as => simp [splitWsAux]
  | cons c cs ih =>
    intro acc hk _
    have hc : c ≠ ' ' := hk c (List.mem_cons_self _ _)
    have hcs : ∀ d ∈ cs, d ≠ ' ' := fun d hd => hk d (List.mem_cons_of_mem _ hd)
    simp only [List.cons_append, splitWsAux, if_neg hc]
    rw [List.append_eq, ih (c :: acc) hcs (Or.inl (by simp))]
    simp

/-- `splitWsAux` on a trailing space-free word yields that word alone. -/
lemma splitWsAux_word (key : Str) :
    ∀ acc : Str, (∀ c ∈ key, c ≠ ' ') → (acc ≠ [] ∨ key ≠ []) →
      splitWsAux key acc = [acc.reverse ++ key] := by
  induction key with
  | nil =>
    intro acc _ hne
    have hacc : acc ≠ [] := hne.resolve_right fun h => h rfl
    cases acc with
    | nil => exact absurd rfl hacc
    | cons a as => simp [splitWsAux]
  | cons c cs ih =>
    intro acc hk _
    have hc : c ≠ ' ' := hk c (List.mem_cons_self _ _)
    have hcs : ∀ d ∈ cs, d ≠ ' ' := fun d hd => hk d (List.mem_cons_of_mem _ hd)
    simp only [splitWsAux, if_neg hc]
    rw [ih (c :: acc) hcs (Or.inl (by simp))]
    simp

/-- Splitting `<key> OP_CHECKSIG` for a nonempty space-free key gives the
two tokens. -/
lemma splitWs_key_checksig (key : Str) (hk : ∀ c ∈ key, c ≠ ' ')
    (hne : key ≠ []) :
    splitWs (key ++ ' ' :: opChecksig) = [key, opChecksig] := by
  unfold splitWs
  rw [splitWsAux_sep opChecksig key [] hk (Or.inr hne)]
  rw [splitWsAux_word opChecksig [] (by decide) (Or.inr (by decide))]
  simp

/-- Substring containment survives prepending. -/
lemma containsSub_append_right (n rest : Str)
    (hbase : containsSub n rest = true) :
    ∀ l : Str, containsSub n (l ++ rest) = true := by
  intro l
  induction l with
  | nil => simpa
  | cons c cs ih => simp [containsSub, ih]

/-- Hex digits are not the space character. -/
lemma hex_ne_space {c : Char} (h : isHexChar c = true) : c ≠ ' ' := by
  intro hc
  subst hc
  simp [isHexChar, hexChars] at h

/-- Invariant of the output pass: keys of the emitted events stay distinct
and always belong to the found-set. -/
lemma processOutsAux_inv (txid : Str) (h : Nat) (t : Int) :
    ∀ (vouts : List Vout) (evs : List P2pkEvent) (found : List Str),
      ((evs.map (·.public_key_hex)).Nodup) →
      (∀ e ∈ evs, e.public_key_hex ∈ found) →
      (((processOutsAux txid h t vouts evs found).1.map
          (·.public_key_hex)).Nodup ∧
        ∀ e ∈ (processOutsAux txid h t vouts evs found).1,
          e.public_key_hex ∈ (processOutsAux txid h t vouts evs found).2) := by
  intro vouts
  induction vouts with
  | nil => intro evs found h1 h2; exact ⟨h1, h2⟩
  | cons v vs ih =>
    intro evs found h1 h2
    cases hc : is_p2pk_script v.scriptPubKey with
    | none => simpa only [processOutsAux, hc] using ih evs found h1 h2
    | some pk =>
      by_cases hm : pk ∈ found
      · simpa only [processOutsAux, hc, if_pos hm] using ih evs found h1 h2
      · have hnm : pk ∉ evs.map (·.public_key_hex) := by
          intro hmem
          obtain ⟨e, he, hkey⟩ := List.mem_map.mp hmem
          exact hm (hkey ▸ h2 e he)
        have h1' : (((evs ++
            [(⟨txid, h, t, pk, satoshiOf v.value, false⟩ : P2pkEvent)]).map
              (·.public_key_hex)).Nodup) := by
          rw [List.map_append]
          simp only [List.map_cons, List.map_nil]
          rw [List.nodup_append]
          refine ⟨h1, List.nodup_singleton pk, ?_⟩
          intro a ha hb
          simp only [List.mem_singleton] at hb
          exact hnm (hb ▸ ha)
        have h2' : ∀ e ∈ evs ++
            [(⟨txid, h, t, pk, satoshiOf v.value, false⟩ : P2pkEvent)],
            e.public_key_hex ∈ pk :: found := by
          intro e he
          rcases List.mem_append.mp he with hl | hr
          · exact List.mem_cons_of_mem _ (h2 e hl)
          · simp only [List.mem_singleton] at hr
            subst hr
            exact List.mem_cons_self _ _
        simpa only [processOutsAux, hc, if_neg hm] using ih _ _ h1' h2'

/-- Invariant of the input pass, continuing the same found-set. -/
lemma processInsAux_inv (cache : Str → Option Tx) (txid : Str) (h : Nat)
    (t : Int) :
    ∀ (vins : List Vin) (evs : List P2pkEvent) (found : List Str),
      ((evs.map (·.public_key_hex)).Nodup) →
      (∀ e ∈ evs, e.public_key_hex ∈ found) →
      (((processInsAux cache txid h t vins evs found).1.map
          (·.public_key_hex)).Nodup ∧
        ∀ e ∈ (processInsAux cache txid h t vins evs found).1,
          e.public_key_hex ∈ (processInsAux cache txid h t vins evs found).2) := by
  intro vins
  induction vins with
  | nil => intro evs found h1 h2; exact ⟨h1, h2⟩
  | cons vin vs ih =>
    intro evs found h1 h2
    cases hc : classifyVin cache vin with
    | none => simpa only [processInsAux, hc] using ih evs found h1 h2
    | some pka =>
      by_cases hm : pka.1 ∈ found
      · simpa only [processInsAux, hc, if_pos hm] using ih evs found h1 h2
      · have hnm : pka.1 ∉ evs.map (·.public_key_hex) := by
          intro hmem
          obtain ⟨e, he, hkey⟩ := List.mem_map.mp hmem
          exact hm (hkey ▸ h2 e he)
        have h1' : (((evs ++
            [(⟨txid, h, t, pka.1, satoshiOf pka.2, true⟩ : P2pkEvent)]).map
              (·.public_key_hex)).Nodup) := by
          rw [List.map_append]
          simp only [List.map_cons, List.map_nil]
          rw [List.nodup_append]
          refine ⟨h1, List.nodup_singleton _, ?_⟩
          intro a ha hb
          simp only [List.mem_singleton] at hb
          exact hnm (hb ▸ ha)
        have h2' : ∀ e ∈ evs ++
            [(⟨txid, h, t, pka.1, satoshiOf pka.2, true⟩ : P2pkEvent)],
            e.public_key_hex ∈ pka.1 :: found := by
          intro e he
          rcases List.mem_append.mp he with hl | hr
          · exact List.mem_cons_of_mem _ (h2 e hl)
          · simp only [List.mem_singleton] at hr
            subst hr
            exact List.mem_cons_self _ _
        simpa only [processInsAux, hc, if_neg hm] using ih _ _ h1' h2'

/-- Across one `process_transaction` call the emitted events carry pairwise
distinct public keys (outputs and inputs share one dedup set). -/
lemma process_transaction_key_nodup (tx : Tx) (h : Nat) (t : Int)
    (cache : Str → Option Tx) :
    ((process_transaction tx h t cache).map (·.public_key_hex)).Nodup := by
  unfold process_transaction
  have ho := processOutsAux_inv tx.txid h t tx.vout [] [] (by simp) (by simp)
  exact (processInsAux_inv cache tx.txid h t tx.vin _ _ ho.1 ho.2).1

/-! ### Claim theorems -/

set_option maxRecDepth 20000 in
/-- C1.  The claim states that every `p2pk_transactions` /
`p2pk_address_blocks` row inserted by a flush references a committed
`p2pk_addresses` id, and that no dependent row is inserted whose
`address_key` was not first resolved.  The code violates this: when a batch
boundary separates a sighting's transaction/block items from its address
item (here: flush threshold 1 on the three-item S1 queue; the default
threshold 1000 is not divisible by 3, and the 2 s timeout flush can split a
triple anywhere) and the key's address row pre-exists in the shared tables
— so the address item's own flush resolves it, leaving no retry entry —
the later flushes carry no mapping entry for the key at all: the
unresolved-key check passes vacuously, `address_mapping.get` yields `None`,
and the dependent rows are inserted and committed with `address_id` NULL,
even though a committed address row (id 1) for the key exists.  (For a
brand-new key the same split instead drops the items: the retried address
key fails resolution and the flush aborts.) -/
theorem c1_split_batch_inserts_null_address_id :
    finSplit.db.addresses.map (fun r => (r.id, r.address)) = [(1, keyK34)] ∧
    finSplit.db.transactions.map (·.address_id) = [none] ∧
    finSplit.db.addressBlocks.map (·.address_id) = [none] := by decide

set_option maxRecDepth 20000 in
/-- C2.  The claim states that after `max_retries` (3) successive failing
flush attempts for one key the writer halts the pipeline fatally and no
event is silently discarded.  The code violates this: the retry entry (with
its attempt counter) is deleted from `failed_addresses` at the start of
every flush, so after three successive flushes of a sighting of the
persistently failing key — in the frozen source every new key fails
persistently, `execute_upsert` being undefined — the counter is still 2
(never reaching
`writerMaxRetries`), no `RuntimeError` escapes `_flush_batch` (its own
`except` logs and returns, so the writer keeps running), and the
transaction/block events of every one of the three batches have been
cleared without being committed anywhere. -/
theorem c2_failed_upsert_never_halts_and_drops_events :
    flushFail3.db.transactions = [] ∧
    flushFail3.db.addressBlocks = [] ∧
    flushFail3.db.addresses = [] ∧
    flushFail3.failed.map (fun p => (p.1, p.2.2)) = [(keyK34, 2)] ∧
    2 < writerMaxRetries := by decide

set_option maxRecDepth 20000 in
/-- C3.  The claim (spec scenario S1) expects that processing a single
block holding one transaction whose single output is `{type:"pubkey",
asm:"<130-hex key starting 04> OP_CHECKSIG"}` with value 1.00000000,
followed by a writer flush, commits exactly one address row, one
transaction row and one block row.  The code violates this: the worker does
extract the sighting and enqueue its three items, but the flush's
new-address insert calls `execute_upsert`, a method `DatabaseManager` never
defines, so the insert raises `AttributeError` into the retry branch, the
key stays unresolved, the flush's `RuntimeError` is swallowed and the
whole batch is dropped — S1 commits zero rows in all three tables and
leaves only a retry entry with one attempt. -/
theorem c3_s1_commits_no_rows :
    qS1.length = 3 ∧
    finS1.db.addresses = [] ∧
    finS1.db.transactions = [] ∧
    finS1.db.addressBlocks = [] ∧
    finS1.failed.map (fun p => (p.1, p.2.2)) = [(keyK34, 1)] := by decide

set_option maxRecDepth 20000 in
/-- C4.  The claim states that a `false` quick scan implies no output of
the block is classified P2PK, covering both the type-tag and the
hex-pattern detection.  The code violates this: `quick_scan_block_for_p2pk`
never inspects the `hex` field, so on a block whose only output carries the
P2PK pattern solely in `hex` (`41 <key130> ac`, non-`pubkey` type, empty
asm) it returns `false` while `is_p2pk_script` classifies that same output
as P2PK. -/
theorem c4_quick_scan_misses_hex_only_p2pk :
    quick_scan_block_for_p2pk hexOnlyBlock = false ∧
    hexOnlyBlock.tx.map
        (fun tx => tx.vout.map fun v => is_p2pk_script v.scriptPubKey) =
      [[some key130]] := by decide

set_option maxRecDepth 20000 in
/-- C5 counterexample.  `txBoth` receives to `key130` in output 0 and
spends a `key130` output through its input (previous transaction in the
cache, no scriptSig so the plausibility heuristic passes): the claim
predicts two events, one per direction, but `process_transaction` emits
exactly one event, the OUTPUT one. -/
theorem c5_counterexample_output_and_input_same_key :
    (process_transaction txBoth 7 0 cacheBoth).map
      (fun e => (e.public_key_hex, e.is_input)) = [(key130, false)] := by decide

set_option maxRecDepth 20000 in
/-- C5 amended.  Deduplication is by pubkey within the whole transaction
across both directions: the emitted events of any transaction carry
pairwise distinct public keys (so two identical P2PK outputs yield one
event — scenario S3 shown concretely — and a pubkey appearing as both
output and spent input also yields a single event, not one per
direction). -/
theorem c5_amended_dedup_ignores_direction :
    (∀ (tx : Tx) (h : Nat) (t : Int) (cache : Str → Option Tx),
      ((process_transaction tx h t cache).map (·.public_key_hex)).Nodup) ∧
    (process_transaction txS3 7 0 fun _ => none).map
      (fun e => (e.public_key_hex, e.is_input)) = [(key130, false)] :=
  ⟨fun tx h t cache => process_transaction_key_nodup tx h t cache, by decide⟩

set_option maxRecDepth 20000 in
/-- C6 counterexample.  After one worker processes the S1 block at height
5, the stored `last_scanned_block` is already 5 while the block's three
events still sit in the write queue and no transaction or block row has
been committed — an observer reading progress 5 and then querying the
database sees none of height 5's events, so progress advanced without any
writer commit. -/
theorem c6_counterexample_progress_ahead_of_commit :
    progressLast stAfterWorker.db = some 5 ∧
    stAfterWorker.db.transactions = [] ∧
    stAfterWorker.db.addressBlocks = [] ∧
    stAfterWorker.queue.map (·.address_key) = [keyK34, keyK34, keyK34] := by
  decide

/-- C6 amended.  `last_scanned_block` is set by the worker to the
just-processed height immediately after block processing — on both the
quick-scan fast path and the full path — before the writer flushes
anything; the worker never touches the transaction or block tables, whose
rows appear only later when the writer drains the queue. -/
theorem c6_amended_progress_set_by_worker :
    ∀ (st : SysState) (b : Block) (hgt : Nat) (qs : Bool)
      (cache : Str → Option Tx),
      (workerProcessBlock st b hgt qs cache).db.hydraProgress =
        st.db.hydraProgress.map (fun p => (hgt, p.2 + 1)) ∧
      (workerProcessBlock st b hgt qs cache).db.transactions =
        st.db.transactions ∧
      (workerProcessBlock st b hgt qs cache).db.addressBlocks =
        st.db.addressBlocks := by
  intro st b hgt qs cache
  unfold workerProcessBlock
  split
  · simp [update_scan_progress]
  · simp [update_scan_progress, upsertMarker]

/-- C7 counterexample.  Two worker completions applied in the order height
101 then height 100 (possible because different workers finish out of
height order) store the sequence 101, 100 — the stored
`last_scanned_block` decreases, refuting monotonicity over all
interleavings. -/
theorem c7_counterexample_progress_decreases :
    progressTrace dbProg0 [101, 100] = [some 101, some 100] := by decide

/-- C7 amended.  `update_scan_progress` overwrites `last_scanned_block`
unconditionally, so the stored sequence equals the completion-height
sequence in completion order: it is non-decreasing exactly when workers
happen to complete heights in non-decreasing order, and out-of-order
completions make it decrease. -/
theorem c7_amended_trace_equals_completion_heights (db : DB)
    (hs : List Nat) (hrow : db.hydraProgress.isSome = true) :
    progressTrace db hs = hs.map some := by
  induction hs generalizing db with
  | nil => rfl
  | cons hgt hs ih =>
    obtain ⟨p, hp⟩ := Option.isSome_iff_exists.mp hrow
    simp only [progressTrace, List.map_cons]
    rw [ih _ (by simp [update_scan_progress, hp])]
    simp [progressLast, update_scan_progress, hp]

/-- C7 amended witness: four completions in non-decreasing order store
exactly those heights. -/
theorem c7_amended_trace_witness :
    progressTrace dbProg0 [3, 4, 4, 7] = [some 3, some 4, some 4, some 7] :=
  c7_amended_trace_equals_completion_heights dbProg0 [3, 4, 4, 7] (by decide)

/-- C8.  Classifier round-trip: for a `pubkey`-typed script whose asm is a
valid hex key (130 chars starting `04`, or 66 chars starting `02`/`03`)
followed by `OP_CHECKSIG`, `is_p2pk_script` returns exactly that key, and
for every `pubkeyhash`-typed descriptor it returns nothing. -/
theorem c8_classifier_round_trip (key hx : Str)
    (hfmt : (key.length = 130 ∧ startsWithS key ('0' :: ['4']) = true) ∨
      (key.length = 66 ∧ (startsWithS key ('0' :: ['2']) = true ∨
        startsWithS key ('0' :: ['3']) = true)))
    (hhex : ∀ c ∈ key, isHexChar c = true) :
    is_p2pk_script ⟨tyPubkey, key ++ ' ' :: opChecksig, hx⟩ = some key ∧
      ∀ spk : ScriptPubKey, spk.type = tyPubkeyhash →
        is_p2pk_script spk = none := by
  constructor
  · have hne : key ≠ [] := by
      intro h
      rcases hfmt with ⟨hl, _⟩ | ⟨hl, _⟩ <;> rw [h] at hl <;> simp at hl
    have hnosp : ∀ c ∈ key, c ≠ ' ' := fun c hc => hex_ne_space (hhex c hc)
    have hsplit := splitWs_key_checksig key hnosp hne
    have hcont : containsSub opChecksig (key ++ ' ' :: opChecksig) = true :=
      containsSub_append_right _ _ (by decide) _
    unfold is_p2pk_script classifyAsm
    rw [if_neg (by decide : ¬ (tyPubkey = tyPubkeyhash))]
    rw [if_pos ⟨rfl, by simp, hcont⟩]
    simp only [hsplit]
    rw [if_pos (⟨by simp, rfl⟩ :
      2 ≤ ([key, opChecksig] : List Str).length ∧
        ([key, opChecksig] : List Str).getLastD [] = opChecksig)]
    simp only [List.headD]
    rcases hfmt with ⟨hl, hp⟩ | ⟨hl, hp⟩
    · rw [if_pos ⟨hl, hp⟩]
      rw [if_pos ⟨hl, List.all_eq_true.mpr
        fun c hc => hhex c (List.mem_of_mem_drop hc)⟩]
    · rw [if_neg (by
        rintro ⟨h130, -⟩
        rw [hl] at h130
        exact absurd h130 (by decide))]
      rw [if_pos ⟨hl, hp⟩]
      rw [if_pos ⟨hl, List.all_eq_true.mpr
        fun c hc => hhex c (List.mem_of_mem_drop hc)⟩]
  · intro spk h
    unfold is_p2pk_script
    rw [if_pos h]

set_option maxRecDepth 20000 in
/-- C8 witness: the round-trip at the concrete S1 key and a concrete
`pubkeyhash` descriptor. -/
theorem c8_classifier_round_trip_witness :
    is_p2pk_script ⟨tyPubkey, key130 ++ ' ' :: opChecksig, []⟩ = some key130 ∧
    is_p2pk_script ⟨tyPubkeyhash, key130 ++ ' ' :: opChecksig, []⟩ = none := by
  have h := c8_classifier_round_trip key130 [] (Or.inl (by decide)) (by decide)
  exact ⟨h.1, h.2 _ rfl⟩

set_option maxRecDepth 20000 in
/-- C9 counterexample.  The classifier accepts uppercase hex
(`keyUpper = 04AAA…`), and `add_transaction` derives the address key as the
raw first 34 characters, which differ from the first 34 characters of the
lowercased key — so the stored key is not the lowercase derivation the
claim states. -/
theorem c9_counterexample_uppercase_key_not_lowercased :
    is_p2pk_script spkUpper = some keyUpper ∧
    (add_transaction evUpper []).map (·.address_key) =
      [keyUpper.take 34, keyUpper.take 34, keyUpper.take 34] ∧
    keyUpper.take 34 ≠ (lowerStr keyUpper).take 34 := by decide

/-- C9 amended.  For every sighting enqueued for persistence, all three
queue items carry the address key `public_key_hex[:34]` taken verbatim from
the classified key, with no case normalization. -/
theorem c9_amended_address_key_take34_verbatim :
    ∀ (ev : P2pkEvent) (q : List QItem),
      (add_transaction ev q).map (·.address_key) =
        q.map (·.address_key) ++
          [ev.public_key_hex.take 34, ev.public_key_hex.take 34,
            ev.public_key_hex.take 34] := by
  intro ev q
  simp [add_transaction]

/-- C10 counterexample.  A cookie-authentication failure is an HTTP 401:
`raise_for_status` turns it into an `HTTPError`, which the loop's
`except RequestException` catches, so `_make_request` makes all 3 attempts
with 2 retry delays instead of raising immediately with no retry. -/
theorem c10_counterexample_auth_failure_retried :
    makeRequest authRejected = .failure .exhausted 3 2 ∧
    makeRequest authRejected ≠ .failure .exhausted 1 0 := by decide

/-- C10 amended.  Transport and HTTP-status failures (authentication
included) are retried up to `MAX_RETRIES` (3) attempts with a
`RETRY_DELAY` (5 s) sleep between attempts, raising on exhaustion; a
JSON-RPC `error` payload or a missing `result` raises immediately after a
single attempt with no retry. -/
theorem c10_amended_retry_policy (responses : Nat → RpcResponse) :
    ((∀ i, i < rpcMaxRetries → isReqExc (responses i) = true) →
      makeRequest responses =
        .failure .exhausted rpcMaxRetries (rpcMaxRetries - 1)) ∧
    (responses 0 = .rpcError →
      makeRequest responses = .failure .rpcError 1 0) ∧
    (responses 0 = .noResult →
      makeRequest responses = .failure .noResult 1 0) := by
  have step : ∀ (fuel att sl : Nat), att < 2 → isReqExc (responses att) = true →
      makeRequestGo responses (fuel + 1) att sl =
        makeRequestGo responses fuel (att + 1) (sl + 1) := by
    intro fuel att sl hlt hexc
    cases hr : responses att <;> rw [hr] at hexc <;> simp [isReqExc] at hexc <;>
      simp [makeRequestGo, hr, rpcMaxRetries, hlt]
  have last2 : ∀ (fuel sl : Nat), isReqExc (responses 2) = true →
      makeRequestGo responses (fuel + 1) 2 sl =
        .failure .exhausted 3 sl := by
    intro fuel sl hexc
    cases hr : responses 2 <;> rw [hr] at hexc <;> simp [isReqExc] at hexc <;>
      simp [makeRequestGo, hr, rpcMaxRetries]
  refine ⟨?_, ?_, ?_⟩
  · intro hall
    show makeRequestGo responses 3 0 0 = MakeResult.failure .exhausted 3 2
    calc makeRequestGo responses 3 0 0
        = makeRequestGo responses 2 1 1 :=
          step 2 0 0 (by decide) (hall 0 (by decide))
      _ = makeRequestGo responses 1 2 2 :=
          step 1 1 1 (by decide) (hall 1 (by decide))
      _ = MakeResult.failure .exhausted 3 2 :=
          last2 0 2 (hall 2 (by decide))
  · intro h0
    show makeRequestGo responses 3 0 0 = MakeResult.failure .rpcError 1 0
    simp [makeRequestGo, h0]
  · intro h0
    show makeRequestGo responses 3 0 0 = MakeResult.failure .noResult 1 0
    simp [makeRequestGo, h0]

/-- C10 amended witness: a permanently failing transport exhausts 3
attempts with 2 delays; an RPC-error payload raises after one attempt. -/
theorem c10_amended_retry_policy_witness :
    makeRequest (fun _ => RpcResponse.transportError) =
      .failure .exhausted 3 2 ∧
    makeRequest (fun _ => RpcResponse.rpcError) = .failure .rpcError 1 0 :=
  ⟨(c10_amended_retry_policy (fun _ => RpcResponse.transportError)).1
      (by decide),
    (c10_amended_retry_policy (fun _ => RpcResponse.rpcError)).2.1 rfl⟩

end QDay
